import Mathlib

/-!
Verification of the toolkit web-helper library (tools.go) against its
natural-language specification.

The Go code is shallowly embedded: pure transformations (Slugfy, RandomString,
header bookkeeping, error-message classification) are translated directly;
interactions with external collaborators (the HTTP server, the multipart
parser, the stdlib JSON decoder, the filesystem, the OS random source) are
modelled by passing their observable outcomes as explicit parameters, exactly
at the points where tools.go consumes them.  Go strings are Lean `String`
values, Go `int`/`int64` are `Int`, Go `error` values are `Option String`
(`none` = nil) carrying the message text.
-/

namespace Toolkit

/-- Fixed 64-symbol source string for random names (tools.go `randStringSource`). -/
def randStringSource : String :=
  "abcdefghijklmnopqrstuvwxyzABCDEFGHIJKLMNOPQRSTUVWXYZ0123456789_+"

/-- Character list of `randStringSource`. -/
def randSourceChars : List Char := randStringSource.data

/-- Embedding of the `Tools` receiver struct (tools.go).  The
`ErrorResponseTemplate` interface value is modelled as an optional function
from the error message and status code to an opaque rendered payload; the
`signalChan` field is modelled by the `RaceWinner` event fed to `RunServer`. -/
structure Tools where
  MaxFileSize : Int
  AllowedFileTypes : List String
  MaxJSONSize : Int
  AllowUnknownFields : Bool
  ErrorResponseTemplate : Option (String → Int → String)

/-- Which of the three `select` arms in `RunServer` fires first: a value
received from `serverErrChan` (possibly nil when the channel is closed), a
termination signal on the stop channel, or context cancellation. -/
inductive RaceWinner where
  | serverError (e : Option String)
  | signal
  | ctxDone

/-- Embedding of the tail of `Tools.RunServer` (tools.go): the three-way
`select`, followed by `srv.Shutdown` bounded by the fresh timeout context and,
on shutdown failure, the escalation to `srv.Close`.  The outcomes of
`Shutdown` and `Close` are external-collaborator results passed in as
`shutdownErr` and `closeErr`.  The combined error mirrors
`fmt.Errorf("server forced to close: %w", errors.Join(err, closeErr))`, whose
message is the prefix followed by the two joined messages separated by a
newline. -/
def RunServer (winner : RaceWinner) (shutdownErr closeErr : Option String) :
    Option String :=
  match winner with
  | .serverError e => e
  | .signal | .ctxDone =>
    match shutdownErr with
    | none => none
    | some err =>
      match closeErr with
      | some closeErr2 =>
          some ("server forced to close: " ++ (err ++ "\n" ++ closeErr2))
      | none => some err

/-- Substring containment on strings, used to state that a combined error
message preserves an underlying cause. -/
def strContains (sub s : String) : Prop := ∃ pre post : String, s = pre ++ sub ++ post

/-- Claim C1: in every `RunServer` run where a shutdown trigger (termination
signal or context cancellation) has been observed, a nil `Shutdown` result
makes `RunServer` return nil; a failing `Shutdown` with a succeeding hard
`Close` makes it return exactly the `Shutdown` error; and a dual failure
yields a single combined error preserving both the `Shutdown` and the `Close`
message. -/
theorem runServer_shutdown_error_contract (winner : RaceWinner)
    (shutdownErr closeErr : Option String)
    (hw : winner = RaceWinner.signal ∨ winner = RaceWinner.ctxDone) :
    (shutdownErr = none → RunServer winner shutdownErr closeErr = none)
    ∧ (∀ e, shutdownErr = some e → closeErr = none →
        RunServer winner shutdownErr closeErr = some e)
    ∧ (∀ e c, shutdownErr = some e → closeErr = some c →
        RunServer winner shutdownErr closeErr
          = some ("server forced to close: " ++ (e ++ "\n" ++ c))
        ∧ strContains e ("server forced to close: " ++ (e ++ "\n" ++ c))
        ∧ strContains c ("server forced to close: " ++ (e ++ "\n" ++ c))) := by
  rcases hw with h | h <;> subst h <;>
    exact ⟨fun h1 => by simp [RunServer, h1],
      fun e h1 h2 => by simp [RunServer, h1, h2],
      fun e c h1 h2 =>
        ⟨by simp [RunServer, h1, h2],
         ⟨"server forced to close: ", "\n" ++ c, by
            simp [String.append_assoc]⟩,
         ⟨"server forced to close: " ++ e ++ "\n", "", by
            simp [String.append_assoc]⟩⟩⟩

/-- Witness for C1: a concrete signal-triggered run in which both the graceful
shutdown and the hard close fail produces the combined message. -/
theorem runServer_shutdown_error_contract_witness :
    RunServer RaceWinner.signal (some "shutdown failed") (some "close failed")
      = some ("server forced to close: " ++ ("shutdown failed" ++ "\n" ++ "close failed")) :=
  ((runServer_shutdown_error_contract RaceWinner.signal (some "shutdown failed")
      (some "close failed") (Or.inl rfl)).2.2 "shutdown failed" "close failed" rfl rfl).1

/-- Classified outcome of one `dec.Decode` call on the size-limited body, as
distinguished by the error switch in `ReadJSON` (tools.go).  Each constructor
corresponds to exactly one arm: a `json.SyntaxError` carrying a byte offset,
`io.ErrUnexpectedEOF`, a `json.UnmarshalTypeError` carrying the field name,
`io.EOF` (empty body), the unknown-field error (constructor carries the field
name; the Go message is `json: unknown field "<name>"`), the
`http: request body too large` read error from `MaxBytesReader`, a
`json.InvalidUnmarshalError`, or any other error carried verbatim. -/
inductive DecodeErr where
  | syntaxError (offset : Int)
  | unexpectedEOF
  | unmarshalTypeError (field : String)
  | eof
  | unknownField (name : String)
  | tooLarge
  | invalidUnmarshal (msg : String)
  | other (msg : String)
deriving DecidableEq

/-- Embedding of the error-classification switch in `ReadJSON` (tools.go).
For the unknown-field arm, `strings.TrimPrefix(err.Error(), "json: unknown field")`
leaves a leading space and the quotes around the name, so the produced message
carries them.  For the too-large arm the source literally says
"body must no be larger" (sic). -/
def classifyDecodeError (e : DecodeErr) (maxBytes : Int) : String :=
  match e with
  | .syntaxError off =>
      "body contains badly-formed JSON (at character " ++ toString off ++ ")"
  | .unexpectedEOF => "body contains badly-formed JSON"
  | .unmarshalTypeError field =>
      "body contains incorrect JSON type for field " ++ "\"" ++ field ++ "\""
  | .eof => "body must not be empty"
  | .unknownField name =>
      "body contains unknown key " ++ (" \"" ++ name ++ "\"")
  | .tooLarge => "body must no be larger than " ++ toString maxBytes ++ " bytes"
  | .invalidUnmarshal msg => "error unmarshaling JSON: " ++ msg
  | .other msg => msg

/-- Observable behaviour of a request body under the stdlib JSON decoder
(an external collaborator): the outcomes of the first and second `Decode`
calls, both for a decoder with `DisallowUnknownFields` set (strict) and for
one without (lax), since `ReadJSON` configures the decoder from
`AllowUnknownFields`.  `none` means the `Decode` call returned a nil error. -/
structure BodyBehavior where
  firstStrict : Option DecodeErr
  secondStrict : Option DecodeErr
  firstLax : Option DecodeErr
  secondLax : Option DecodeErr

/-- Outcome of the primary `Decode` call the decoder configured by `t` sees. -/
def readFirst (t : Tools) (b : BodyBehavior) : Option DecodeErr :=
  if t.AllowUnknownFields then b.firstLax else b.firstStrict

/-- Outcome of the trailing `Decode(&struct{}{})` call the decoder configured
by `t` sees. -/
def readSecond (t : Tools) (b : BodyBehavior) : Option DecodeErr :=
  if t.AllowUnknownFields then b.secondLax else b.secondStrict

/-- Embedding of `Tools.ReadJSON` (tools.go): size limit selection
(`MaxJSONSize` when positive, else 1 MiB), strict-mode selection, primary
decode with error classification, then the single-value check; anything other
than `io.EOF` from the second decode is rejected. -/
def ReadJSON (t : Tools) (b : BodyBehavior) : Option String :=
  let maxBytes : Int := if t.MaxJSONSize > 0 then t.MaxJSONSize else 1048576
  match readFirst t b with
  | some e => some (classifyDecodeError e maxBytes)
  | none =>
    if readSecond t b = some DecodeErr.eof then none
    else some "body must contain only one JSON value"

/-- Claim C3: when the primary JSON value decodes successfully, a trailing
decode outcome other than end-of-stream makes `ReadJSON` fail with
"body must contain only one JSON value", while an end-of-stream trailing
outcome leaves the body accepted and `ReadJSON` returns nil. -/
theorem readJSON_single_value (t : Tools) (b : BodyBehavior)
    (h1 : readFirst t b = none) :
    (readSecond t b ≠ some DecodeErr.eof →
      ReadJSON t b = some "body must contain only one JSON value")
    ∧ (readSecond t b = some DecodeErr.eof → ReadJSON t b = none) := by
  constructor
  · intro h2
    simp [ReadJSON, h1, h2]
  · intro h2
    simp [ReadJSON, h1, h2]

/-- Witness for C3: a body that decodes as one value followed by a second
value (second decode succeeds, hence not end-of-stream) is rejected as
multi-value, and a body with one value followed by end-of-stream is accepted. -/
theorem readJSON_single_value_witness :
    ReadJSON ⟨0, [], 0, false, none⟩ ⟨none, none, none, none⟩
      = some "body must contain only one JSON value"
    ∧ ReadJSON ⟨0, [], 0, false, none⟩
        ⟨none, some DecodeErr.eof, none, some DecodeErr.eof⟩ = none :=
  ⟨(readJSON_single_value ⟨0, [], 0, false, none⟩ ⟨none, none, none, none⟩ rfl).1
      (by decide),
   (readJSON_single_value ⟨0, [], 0, false, none⟩
      ⟨none, some DecodeErr.eof, none, some DecodeErr.eof⟩ rfl).2 rfl⟩

/-- Counterexample for C4: with the default 1 MiB limit in effect, a body
whose size-limited read reports the too-large condition is rejected with the
message "body must no be larger than 1048576 bytes" (sic), not the message
"body must not be larger than 1048576 bytes" stated in the claim. -/
theorem readJSON_too_large_counterexample :
    ReadJSON ⟨0, [], 0, false, none⟩ ⟨some DecodeErr.tooLarge, none, none, none⟩
      = some "body must no be larger than 1048576 bytes"
    ∧ ReadJSON ⟨0, [], 0, false, none⟩ ⟨some DecodeErr.tooLarge, none, none, none⟩
      ≠ some "body must not be larger than 1048576 bytes" := by
  constructor
  · rfl
  · decide

/-- Claim C4 (amended): `ReadJSON` bounds the body at `MaxJSONSize` bytes when
that field is positive and at 1048576 bytes otherwise, and when the
size-limited read reports the body-too-large condition during the primary
decode it fails with "body must no be larger than <limit> bytes" (the code's
literal message) carrying the numeric limit in effect. -/
theorem readJSON_too_large (t : Tools) (b : BodyBehavior)
    (h : readFirst t b = some DecodeErr.tooLarge) :
    ReadJSON t b
      = some ("body must no be larger than "
          ++ toString (if t.MaxJSONSize > 0 then t.MaxJSONSize else 1048576)
          ++ " bytes") := by
  simp [ReadJSON, h, classifyDecodeError]

/-- Witness for C4: with `MaxJSONSize = 5` the too-large rejection carries 5. -/
theorem readJSON_too_large_witness :
    ReadJSON ⟨0, [], 5, false, none⟩ ⟨some DecodeErr.tooLarge, none, none, none⟩
      = some "body must no be larger than 5 bytes" :=
  readJSON_too_large ⟨0, [], 5, false, none⟩
    ⟨some DecodeErr.tooLarge, none, none, none⟩ rfl

/-- Claim C5: for a body carrying a field absent from the target shape (so the
strict decoder rejects it as an unknown field while the lax decoder accepts
it), `ReadJSON` with `AllowUnknownFields = false` fails with an unknown-key
error naming the field, and with `AllowUnknownFields = true` the same body
decodes with no error. -/
theorem readJSON_unknown_field (t : Tools) (b : BodyBehavior) (name : String)
    (hStrict : b.firstStrict = some (DecodeErr.unknownField name))
    (hLax1 : b.firstLax = none)
    (hLax2 : b.secondLax = some DecodeErr.eof) :
    (t.AllowUnknownFields = false →
      ReadJSON t b = some ("body contains unknown key " ++ (" \"" ++ name ++ "\"")))
    ∧ (t.AllowUnknownFields = true → ReadJSON t b = none) := by
  constructor
  · intro hAllow
    simp [ReadJSON, readFirst, hAllow, hStrict, classifyDecodeError]
  · intro hAllow
    simp [ReadJSON, readFirst, readSecond, hAllow, hLax1, hLax2]

/-- Witness for C5: a body with unknown field "height" is rejected with the
message naming the field when unknown fields are disallowed, and accepted when
they are allowed. -/
theorem readJSON_unknown_field_witness :
    ReadJSON ⟨0, [], 0, false, none⟩
      ⟨some (DecodeErr.unknownField "height"), none, none, some DecodeErr.eof⟩
      = some ("body contains unknown key " ++ (" \"" ++ "height" ++ "\""))
    ∧ ReadJSON ⟨0, [], 0, true, none⟩
      ⟨some (DecodeErr.unknownField "height"), none, none, some DecodeErr.eof⟩
      = none :=
  ⟨(readJSON_unknown_field ⟨0, [], 0, false, none⟩
      ⟨some (DecodeErr.unknownField "height"), none, none, some DecodeErr.eof⟩
      "height" rfl rfl rfl).1 rfl,
   (readJSON_unknown_field ⟨0, [], 0, true, none⟩
      ⟨some (DecodeErr.unknownField "height"), none, none, some DecodeErr.eof⟩
      "height" rfl rfl rfl).2 rfl⟩

/-- Event recorded against the `http.ResponseWriter`: a `WriteHeader(status)`
call or a `Write(bytes)` call. -/
inductive WireEvent where
  | writeHeader (status : Int)
  | write (bytes : String)
deriving DecidableEq

/-- State of the `http.ResponseWriter` collaborator: the response header map
(modelled as an association list with at most one entry per key, Go maps
being unordered) and the ordered trace of status/body writes. -/
structure ResponseWriter where
  headers : List (String × List String)
  wire : List WireEvent
deriving DecidableEq

/-- Removal of a key from the header map. -/
def eraseKey (h : List (String × List String)) (k : String) :
    List (String × List String) :=
  h.filter (fun kv => kv.1 != k)

/-- Map assignment `m[k] = v` on the header map (`Header.Set` with the key
already canonical, and the assignment performed by `maps.Copy`). -/
def setEntry (h : List (String × List String)) (k : String) (v : List String) :
    List (String × List String) :=
  (k, v) :: eraseKey h k

/-- Embedding of `maps.Copy(dst, src)`: every entry of `src` is assigned into
`dst`. -/
def mapsCopy (dst src : List (String × List String)) :
    List (String × List String) :=
  src.foldl (fun d kv => setEntry d kv.1 kv.2) dst

/-- Lookup in the header map. -/
def lookupHeader (h : List (String × List String)) (k : String) :
    Option (List String) :=
  (h.find? (fun kv => kv.1 == k)).map (fun kv => kv.2)

/-- Embedding of `Tools.WriteJSON` (tools.go): marshal the payload (outcome of
the external `json.Marshal` passed as `marshal`); on success copy the first
optional header map into the response headers, set `Content-Type`, write the
status, then write the bytes; a failing `w.Write` (outcome `writeErr`)
propagates.  The `Tools` receiver is not read by the Go method and is omitted. -/
def WriteJSON (w : ResponseWriter) (status : Int)
    (marshal : Except String String) (writeErr : Option String)
    (headers : List (List (String × List String))) :
    ResponseWriter × Option String :=
  match marshal with
  | .error e => (w, some e)
  | .ok out =>
    let w1 := match headers with
      | [] => w
      | h0 :: _ => { w with headers := mapsCopy w.headers h0 }
    let w2 := { w1 with
      headers := setEntry w1.headers "Content-Type" ["application/json"] }
    let w3 := { w2 with wire := w2.wire ++ [WireEvent.writeHeader status] }
    let w4 := { w3 with wire := w3.wire ++ [WireEvent.write out] }
    match writeErr with
    | some e => (w4, some e)
    | none => (w4, none)

lemma lookupHeader_setEntry_self (h : List (String × List String)) (k : String)
    (v : List String) : lookupHeader (setEntry h k v) k = some v := by
  simp [lookupHeader, setEntry, List.find?_cons_of_pos]

lemma find?_eraseKey_ne (h : List (String × List String)) (k k2 : String)
    (hne : k ≠ k2) :
    (eraseKey h k2).find? (fun kv => kv.1 == k) = h.find? (fun kv => kv.1 == k) := by
  induction h with
  | nil => rfl
  | cons kv t ih =>
    by_cases hk2 : kv.1 = k2
    · have h1 : eraseKey (kv :: t) k2 = eraseKey t k2 := by
        simp [eraseKey, List.filter_cons, hk2]
      have h2 : (kv :: t).find? (fun kv => kv.1 == k) = t.find? (fun kv => kv.1 == k) := by
        refine List.find?_cons_of_neg _ ?_
        simp [hk2]
        exact fun hkk => hne hkk.symm
      rw [h1, h2, ih]
    · have h1 : eraseKey (kv :: t) k2 = kv :: eraseKey t k2 := by
        simp [eraseKey, List.filter_cons, hk2]
      rw [h1]
      by_cases hk : kv.1 = k
      · simp [List.find?_cons, hk]
      · simp [List.find?_cons, hk, ih]

lemma lookupHeader_setEntry_ne (h : List (String × List String)) (k k2 : String)
    (v : List String) (hne : k ≠ k2) :
    lookupHeader (setEntry h k2 v) k = lookupHeader h k := by
  have hpred : (k2 == k) = false := by
    simp
    exact fun hkk => hne hkk.symm
  simp [lookupHeader, setEntry, List.find?, hpred, find?_eraseKey_ne h k k2 hne]

lemma lookupHeader_mapsCopy_not_mem (src : List (String × List String))
    (k : String) :
    ∀ dst, (∀ kv ∈ src, kv.1 ≠ k) →
      lookupHeader (mapsCopy dst src) k = lookupHeader dst k := by
  induction src with
  | nil => intro dst _; rfl
  | cons kv t ih =>
    intro dst hk
    have h1 : lookupHeader (mapsCopy (setEntry dst kv.1 kv.2) t) k
        = lookupHeader (setEntry dst kv.1 kv.2) k :=
      ih (setEntry dst kv.1 kv.2) (fun kv2 hm => hk kv2 (List.mem_cons_of_mem _ hm))
    have h2 : lookupHeader (setEntry dst kv.1 kv.2) k = lookupHeader dst k :=
      lookupHeader_setEntry_ne dst k kv.1 kv.2
        (fun he => hk kv (List.mem_cons_self _ _) he.symm)
    exact h1.trans h2

lemma lookupHeader_mapsCopy_mem (src : List (String × List String))
    (k : String) (v : List String) :
    ∀ dst, (src.map Prod.fst).Nodup → (k, v) ∈ src →
      lookupHeader (mapsCopy dst src) k = some v := by
  induction src with
  | nil => intro dst _ hmem; exact absurd hmem (List.not_mem_nil _)
  | cons kv t ih =>
    intro dst hnd hmem
    rcases List.mem_cons.mp hmem with heq | hmem2
    · subst heq
      have hk : ∀ kv2 ∈ t, kv2.1 ≠ k := by
        intro kv2 hm he
        have : k ∈ t.map Prod.fst := he ▸ List.mem_map_of_mem Prod.fst hm
        exact (List.nodup_cons.mp hnd).1 this
      have h1 : lookupHeader (mapsCopy (setEntry dst k v) t) k
          = lookupHeader (setEntry dst k v) k :=
        lookupHeader_mapsCopy_not_mem t k (setEntry dst k v) hk
      exact h1.trans (lookupHeader_setEntry_self dst k v)
    · exact ih (setEntry dst kv.1 kv.2) (List.nodup_cons.mp hnd).2 hmem2

/-- Counterexample for C6: a caller-supplied `Content-Type: text/plain` header
entry is not present after a successful `WriteJSON` call — the codec
overwrites it with `application/json` — so not every caller-supplied header
entry survives. -/
theorem writeJSON_content_type_counterexample :
    lookupHeader (WriteJSON ⟨[], []⟩ 200 (Except.ok "null") none
        [[("Content-Type", ["text/plain"])]]).1.headers "Content-Type"
      ≠ some ["text/plain"] := by decide

/-- Claim C6 (amended): for every successful `WriteJSON` call given a headers
map, every caller-supplied header entry whose key is not `Content-Type` is
present in the response headers afterward, the `Content-Type` header is
`application/json` (overriding a caller-supplied `Content-Type`, the one kind
of entry that is dropped), and the status code is written before the
serialized body bytes. -/
theorem writeJSON_headers_and_order (w : ResponseWriter) (status : Int)
    (out : String) (h : List (String × List String))
    (hnd : (h.map Prod.fst).Nodup) :
    (WriteJSON w status (Except.ok out) none [h]).2 = none
    ∧ (∀ k v, (k, v) ∈ h → k ≠ "Content-Type" →
        lookupHeader (WriteJSON w status (Except.ok out) none [h]).1.headers k
          = some v)
    ∧ lookupHeader (WriteJSON w status (Except.ok out) none [h]).1.headers
        "Content-Type" = some ["application/json"]
    ∧ (WriteJSON w status (Except.ok out) none [h]).1.wire
        = w.wire ++ [WireEvent.writeHeader status, WireEvent.write out] := by
  refine ⟨rfl, ?_, ?_, ?_⟩
  · intro k v hmem hne
    show lookupHeader (setEntry (mapsCopy w.headers h) "Content-Type"
        ["application/json"]) k = some v
    rw [lookupHeader_setEntry_ne _ k "Content-Type" _ hne]
    exact lookupHeader_mapsCopy_mem h k v w.headers hnd hmem
  · exact lookupHeader_setEntry_self (mapsCopy w.headers h) "Content-Type"
      ["application/json"]
  · show w.wire ++ [WireEvent.writeHeader status] ++ [WireEvent.write out] = _
    simp

/-- Witness for C6: a concrete call with the caller header `X-Request-Id: abc`
keeps that entry, sets `Content-Type: application/json`, and writes the status
then the body. -/
theorem writeJSON_headers_and_order_witness :
    lookupHeader (WriteJSON ⟨[], []⟩ 201 (Except.ok "null") none
        [[("X-Request-Id", ["abc"])]]).1.headers "X-Request-Id" = some ["abc"]
    ∧ lookupHeader (WriteJSON ⟨[], []⟩ 201 (Except.ok "null") none
        [[("X-Request-Id", ["abc"])]]).1.headers "Content-Type"
        = some ["application/json"]
    ∧ (WriteJSON ⟨[], []⟩ 201 (Except.ok "null") none
        [[("X-Request-Id", ["abc"])]]).1.wire
        = [] ++ [WireEvent.writeHeader 201, WireEvent.write "null"] :=
  ⟨(writeJSON_headers_and_order ⟨[], []⟩ 201 "null"
      [("X-Request-Id", ["abc"])] (by decide)).2.1 "X-Request-Id" ["abc"]
      (by decide) (by decide),
   (writeJSON_headers_and_order ⟨[], []⟩ 201 "null"
      [("X-Request-Id", ["abc"])] (by decide)).2.2.1,
   (writeJSON_headers_and_order ⟨[], []⟩ 201 "null"
      [("X-Request-Id", ["abc"])] (by decide)).2.2.2⟩

/-- Wire envelope type for JSON responses (tools.go `JSONResponse`).  The Go
`Data` field is `interface{}`; in the built-in error path it always holds the
`int` passed to `Prepare`, so it is modelled as `Int`. -/
structure JSONResponse where
  error : Bool
  message : String
  data : Int
deriving DecidableEq

/-- Embedding of `JSONResponse.Prepare` (tools.go): ignores the receiver and
builds the envelope from the error message and the status argument. -/
def JSONResponse.Prepare (_j : JSONResponse) (err : String) (status : Int) :
    JSONResponse :=
  { error := true, message := err, data := status }

/-- Payload chosen by `ErrorJSON`: the opaque rendering produced by the
configured `ErrorTemplate`, or the built-in `JSONResponse` envelope. -/
inductive ErrorPayload where
  | fromTemplate (out : String)
  | builtin (resp : JSONResponse)
deriving DecidableEq

/-- Observable outcome of an `ErrorJSON` call: the chosen status code, the
payload handed to `WriteJSON`, the final writer state and the returned error. -/
structure ErrorJSONResult where
  statusCode : Int
  payload : ErrorPayload
  writer : ResponseWriter
  result : Option String

/-- Embedding of `Tools.ErrorJSON` (tools.go): choose the status (variadic
override or 400), set `Content-Type` and write the status directly on the
writer, build the payload via the configured template called with the chosen
status — or via `JSONResponse{}.Prepare(err, 0)`, which the source calls with
the literal `0` — and delegate to `WriteJSON` with the chosen status.
`marshalOf` supplies the external `json.Marshal` outcome for the payload. -/
def ErrorJSON (t : Tools) (w : ResponseWriter) (errMsg : String)
    (status : List Int) (marshalOf : ErrorPayload → Except String String)
    (writeErr : Option String) : ErrorJSONResult :=
  let statusCode : Int := match status with | [] => 400 | s :: _ => s
  let w1 := { w with
    headers := setEntry w.headers "Content-Type" ["application/json"] }
  let w2 := { w1 with wire := w1.wire ++ [WireEvent.writeHeader statusCode] }
  let payload : ErrorPayload :=
    match t.ErrorResponseTemplate with
    | some f => ErrorPayload.fromTemplate (f errMsg statusCode)
    | none => ErrorPayload.builtin (JSONResponse.Prepare ⟨false, "", 0⟩ errMsg 0)
  let r := WriteJSON w2 statusCode (marshalOf payload) writeErr []
  ⟨statusCode, payload, r.1, r.2⟩

/-- Counterexample for C2: with no template configured and the override 500,
the built-in envelope written by `ErrorJSON` carries `data = 0`, not the
chosen status 500 stated in the claim. -/
theorem errorJSON_builtin_data_counterexample :
    (ErrorJSON ⟨0, [], 0, false, none⟩ ⟨[], []⟩ "boom" [500]
        (fun _ => Except.ok "null") none).payload
      = ErrorPayload.builtin ⟨true, "boom", 0⟩
    ∧ (ErrorJSON ⟨0, [], 0, false, none⟩ ⟨[], []⟩ "boom" [500]
        (fun _ => Except.ok "null") none).payload
      ≠ ErrorPayload.builtin ⟨true, "boom", 500⟩ := by
  exact ⟨rfl, by decide⟩

/-- Claim C2 (amended): `ErrorJSON` uses the supplied status override when one
is given and 400 otherwise; with a configured template the payload is the
template's `Prepare` applied to the error and the chosen status; without one
the payload is the built-in envelope with `error = true`, `message` the error
text, and `data = 0` — the source passes the literal 0, not the chosen
status, to the built-in `Prepare`. -/
theorem errorJSON_status_and_payload (t : Tools) (w : ResponseWriter)
    (errMsg : String) (status : List Int)
    (marshalOf : ErrorPayload → Except String String) (writeErr : Option String) :
    (ErrorJSON t w errMsg status marshalOf writeErr).statusCode
      = (match status with | [] => (400 : Int) | s :: _ => s)
    ∧ (∀ f, t.ErrorResponseTemplate = some f →
        (ErrorJSON t w errMsg status marshalOf writeErr).payload
          = ErrorPayload.fromTemplate
              (f errMsg (ErrorJSON t w errMsg status marshalOf writeErr).statusCode))
    ∧ (t.ErrorResponseTemplate = none →
        (ErrorJSON t w errMsg status marshalOf writeErr).payload
          = ErrorPayload.builtin ⟨true, errMsg, 0⟩) := by
  refine ⟨rfl, ?_, ?_⟩
  · intro f hf
    simp [ErrorJSON, hf]
  · intro hf
    simp [ErrorJSON, hf, JSONResponse.Prepare]

/-- Witness for C2: with no template the payload is the built-in envelope with
`data = 0`; with a constant template the payload is the template rendering. -/
theorem errorJSON_status_and_payload_witness :
    (ErrorJSON ⟨0, [], 0, false, none⟩ ⟨[], []⟩ "bad" [422]
        (fun _ => Except.ok "null") none).payload
      = ErrorPayload.builtin ⟨true, "bad", 0⟩
    ∧ (ErrorJSON ⟨0, [], 0, false, some (fun _ _ => "tpl")⟩ ⟨[], []⟩ "bad" []
        (fun _ => Except.ok "null") none).payload
      = ErrorPayload.fromTemplate "tpl" :=
  ⟨(errorJSON_status_and_payload ⟨0, [], 0, false, none⟩ ⟨[], []⟩ "bad" [422]
      (fun _ => Except.ok "null") none).2.2 rfl,
   (errorJSON_status_and_payload ⟨0, [], 0, false, some (fun _ _ => "tpl")⟩
      ⟨[], []⟩ "bad" [] (fun _ => Except.ok "null") none).2.1
      (fun _ _ => "tpl") rfl⟩

/-- Action of Unicode simple lowering on the ASCII codepoints: uppercase
ASCII letters shift down by 32 and every other ASCII codepoint is fixed.
This is the concrete instance used for the all-ASCII MIME-type comparison in
`equalFold` and for witnesses; the full Unicode `strings.ToLower` of the slug
pipeline is an external collaborator and enters `Slugfy` as the oracle
parameter `low`. -/
def toLowerAscii (c : Char) : Char :=
  if 65 ≤ c.toNat && c.toNat ≤ 90 then Char.ofNat (c.toNat + 32) else c

/-- Model of `strings.EqualFold` for the ASCII MIME-type strings compared by
`UploadFiles`: equality after ASCII case folding. -/
def equalFold (a b : String) : Bool :=
  a.data.map toLowerAscii == b.data.map toLowerAscii

/-- Model of `filepath.Ext` for base filenames: the suffix starting at the
final dot, or the empty string when no dot occurs. -/
def fileExt (s : String) : String :=
  if s.data.contains '.' then
    ⟨'.' :: (s.data.reverse.takeWhile (fun c => c != '.')).reverse⟩
  else ""

/-- Record for an accepted upload (tools.go `UploadedFile`). -/
structure UploadedFile where
  OriginalFileName : String
  NewFileName : String
  FileSize : Int
deriving DecidableEq

/-- Observable behaviour of one multipart file part under the external
collaborators consumed by the per-part closure in `UploadFiles`: the filename
from the part header, the outcomes of `hdr.Open`, the 512-byte `Read`, the
`http.DetectContentType` sniff, the `Seek` rewind, the `RandomString(25)`
token drawn for the renamed file, and the `os.Create` / `io.Copy`
persistence outcomes. -/
structure FilePart where
  filename : String
  openErr : Option String
  readErr : Option String
  detectedType : String
  seekErr : Option String
  nameToken : String
  createErr : Option String
  copyResult : Except String Int

/-- Embedding of the per-part anonymous function inside `UploadFiles`
(tools.go): open, read the sniff buffer, check the detected content type
against `AllowedFileTypes` (an empty allow-list accepts everything, otherwise
any case-insensitive match accepts), rewind, pick the stored name (random
token plus original extension when renaming, else the original name), create
and copy, and build the `UploadedFile` record. -/
def processPart (t : Tools) (renameFile : Bool) (p : FilePart) :
    Except String UploadedFile :=
  match p.openErr with
  | some e => .error e
  | none =>
  match p.readErr with
  | some e => .error e
  | none =>
  let allowed :=
    if t.AllowedFileTypes.length > 0 then
      t.AllowedFileTypes.any (fun ft => equalFold p.detectedType ft)
    else true
  if allowed = false then .error "invalid file type" else
  match p.seekErr with
  | some e => .error e
  | none =>
  let newName := if renameFile then p.nameToken ++ fileExt p.filename else p.filename
  match p.createErr with
  | some e => .error e
  | none =>
  match p.copyResult with
  | .error e => .error e
  | .ok size => .ok ⟨p.filename, newName, size⟩

/-- Observable behaviour of one multipart upload request: the outcome of
`CreateDirIfNotExists` on the target directory, the outcome of
`ParseMultipartForm` under the size bound, and the file parts in the order the
`MultipartForm.File` iteration visits them. -/
structure UploadRequest where
  mkdirErr : Option String
  parseErr : Option String
  parts : List FilePart

/-- Variadic `rename ...bool` resolution used by `UploadFiles` and
`UploadOneFile`: default `true`, else the first element. -/
def renameFlag (rename : List Bool) : Bool :=
  match rename with
  | [] => true
  | b :: _ => b

/-- Loop over the file parts in `UploadFiles`: each part is processed in turn;
the first failure returns the files accumulated so far together with the
error, and a clean pass returns them all with a nil error. -/
def uploadFilesLoop (t : Tools) (renameFile : Bool) (acc : List UploadedFile) :
    List FilePart → List UploadedFile × Option String
  | [] => (acc, none)
  | p :: rest =>
    match processPart t renameFile p with
    | .error e => (acc, some e)
    | .ok f => uploadFilesLoop t renameFile (acc ++ [f]) rest

/-- Embedding of `Tools.UploadFiles` (tools.go): directory creation failure
returns a nil slice and the error; a `ParseMultipartForm` failure returns the
fixed "the uploaded file is too big." error; otherwise the parts are
processed in order.  The `MaxFileSize` lazy default and the `MaxBytesReader`
bound act only through the parse outcome and are abstracted into `parseErr`. -/
def UploadFiles (t : Tools) (r : UploadRequest) (rename : List Bool) :
    List UploadedFile × Option String :=
  match r.mkdirErr with
  | some e => ([], some e)
  | none =>
  match r.parseErr with
  | some _ => ([], some "the uploaded file is too big.")
  | none => uploadFilesLoop t (renameFlag rename) [] r.parts

/-- Outcome of a Go call that can also end in a runtime panic. -/
inductive GoCall (α : Type) where
  | ok (a : α)
  | err (e : String)
  | panicked (msg : String)
deriving DecidableEq

/-- Embedding of `Tools.UploadOneFile` (tools.go): delegate to `UploadFiles`
and return `files[0]` — an index into a possibly empty slice, which in Go
panics when the slice is empty. -/
def UploadOneFile (t : Tools) (r : UploadRequest) (rename : List Bool) :
    GoCall UploadedFile :=
  match UploadFiles t r [renameFlag rename] with
  | (_, some e) => .err e
  | (files, none) =>
    match files with
    | [] => .panicked "runtime error: index out of range [0] with length 0"
    | f :: _ => .ok f

lemma uploadFilesLoop_first_failure (t : Tools) (rf : Bool) (bad : FilePart)
    (post : List FilePart) (e : String) (hbad : processPart t rf bad = .error e) :
    ∀ (pre : List FilePart) (acc : List UploadedFile),
      (∀ p ∈ pre, (processPart t rf p).isOk = true) →
      uploadFilesLoop t rf acc (pre ++ bad :: post)
        = (acc ++ pre.filterMap (fun p => (processPart t rf p).toOption), some e) := by
  intro pre
  induction pre with
  | nil =>
    intro acc _
    simp [uploadFilesLoop, hbad]
  | cons p rest ih =>
    intro acc hpre
    have hp : (processPart t rf p).isOk = true := hpre p (List.mem_cons_self _ _)
    match hpp : processPart t rf p with
    | .error e2 => rw [hpp] at hp; simp [Except.isOk, Except.toBool] at hp
    | .ok f =>
      have hrest : ∀ q ∈ rest, (processPart t rf q).isOk = true :=
        fun q hq => hpre q (List.mem_cons_of_mem _ hq)
      calc uploadFilesLoop t rf acc ((p :: rest) ++ bad :: post)
          = uploadFilesLoop t rf (acc ++ [f]) (rest ++ bad :: post) := by
            simp [uploadFilesLoop, hpp]
        _ = ((acc ++ [f]) ++ rest.filterMap (fun q => (processPart t rf q).toOption),
              some e) := ih (acc ++ [f]) hrest
        _ = (acc ++ (p :: rest).filterMap (fun q => (processPart t rf q).toOption),
              some e) := by
            simp [List.filterMap_cons, hpp, Except.toOption]

lemma uploadFilesLoop_ok_length (t : Tools) (rf : Bool) :
    ∀ (ps : List FilePart) (acc files : List UploadedFile),
      uploadFilesLoop t rf acc ps = (files, none) →
      files.length = acc.length + ps.length := by
  intro ps
  induction ps with
  | nil =>
    intro acc files h
    simp [uploadFilesLoop] at h
    simp [h]
  | cons p rest ih =>
    intro acc files h
    match hpp : processPart t rf p with
    | .error e2 => rw [uploadFilesLoop, hpp] at h; simp at h
    | .ok f =>
      rw [uploadFilesLoop, hpp] at h
      have := ih (acc ++ [f]) files h
      simp at this
      simp [this]
      omega

/-- Claim C7: when processing some file part fails, `UploadFiles` stops at the
first failing part and returns the error together with the `UploadedFile`
records of every part fully persisted before it — the earlier successes are
returned, not discarded. -/
theorem uploadFiles_keeps_earlier_successes (t : Tools) (r : UploadRequest)
    (rename : List Bool) (pre post : List FilePart) (bad : FilePart) (e : String)
    (hmk : r.mkdirErr = none) (hparse : r.parseErr = none)
    (hparts : r.parts = pre ++ bad :: post)
    (hpre : ∀ p ∈ pre, (processPart t (renameFlag rename) p).isOk = true)
    (hbad : processPart t (renameFlag rename) bad = .error e) :
    UploadFiles t r rename
      = (pre.filterMap (fun p => (processPart t (renameFlag rename) p).toOption),
         some e) := by
  have h := uploadFilesLoop_first_failure t (renameFlag rename) bad post e hbad pre [] hpre
  simp at h
  simp [UploadFiles, hmk, hparse, hparts, h]

/-- Witness for C7: a request whose first part persists as a 5-byte file and
whose second part fails to open returns the first record alongside the error. -/
theorem uploadFiles_keeps_earlier_successes_witness :
    UploadFiles ⟨0, [], 0, false, none⟩
      ⟨none, none,
        [⟨"a.png", none, none, "image/png", none, "tok", none, Except.ok 5⟩,
         ⟨"b.png", some "open failed", none, "image/png", none, "tok", none,
           Except.ok 7⟩]⟩ []
      = ([⟨"a.png", "tok" ++ fileExt "a.png", 5⟩], some "open failed") := by
  have h := uploadFiles_keeps_earlier_successes ⟨0, [], 0, false, none⟩
    ⟨none, none,
      [⟨"a.png", none, none, "image/png", none, "tok", none, Except.ok 5⟩,
       ⟨"b.png", some "open failed", none, "image/png", none, "tok", none,
         Except.ok 7⟩]⟩ []
    [⟨"a.png", none, none, "image/png", none, "tok", none, Except.ok 5⟩] []
    ⟨"b.png", some "open failed", none, "image/png", none, "tok", none,
      Except.ok 7⟩ "open failed" rfl rfl rfl (by decide) rfl
  simpa [processPart, Except.toOption] using h

/-- Claim C10: a well-formed multipart request with zero file parts makes
`UploadFiles` return a nil error and an empty list, after which
`UploadOneFile` indexes element 0 of that empty slice and panics; indeed
`UploadOneFile` panics exactly when the request parses cleanly and carries no
file part, so it is safe only under the precondition of at least one part. -/
theorem uploadOneFile_panics_on_empty (t : Tools) (r : UploadRequest)
    (rename : List Bool) :
    (r.mkdirErr = none → r.parseErr = none → r.parts = [] →
      UploadFiles t r rename = ([], none))
    ∧ (UploadOneFile t r rename
        = GoCall.panicked "runtime error: index out of range [0] with length 0"
      ↔ r.mkdirErr = none ∧ r.parseErr = none ∧ r.parts = []) := by
  constructor
  · intro hmk hparse hparts
    simp [UploadFiles, hmk, hparse, hparts, uploadFilesLoop]
  · constructor
    · intro h
      rw [UploadOneFile] at h
      match hmk : r.mkdirErr with
      | some e => simp [UploadFiles, hmk] at h
      | none =>
      match hparse : r.parseErr with
      | some e => simp [UploadFiles, hmk, hparse] at h
      | none =>
      refine ⟨rfl, rfl, ?_⟩
      match hload : uploadFilesLoop t (renameFlag [renameFlag rename]) [] r.parts with
      | (files, some e) => simp [UploadFiles, hmk, hparse, hload] at h
      | (files, none) =>
        have hlen := uploadFilesLoop_ok_length t (renameFlag [renameFlag rename])
          r.parts [] files hload
        simp at hlen
        match hfiles : files with
        | [] =>
          have hlen0 : r.parts.length = 0 := by simpa using hlen.symm
          exact List.length_eq_zero.mp hlen0
        | f :: rest => simp [UploadFiles, hmk, hparse, hload, hfiles] at h
    · rintro ⟨hmk, hparse, hparts⟩
      simp [UploadOneFile, UploadFiles, hmk, hparse, hparts, uploadFilesLoop]

/-- Witness for C10: a concrete request with no file parts makes
`UploadFiles` return `([], nil)` and `UploadOneFile` panic. -/
theorem uploadOneFile_panics_on_empty_witness :
    UploadFiles ⟨0, [], 0, false, none⟩ ⟨none, none, []⟩ []
      = ([], none)
    ∧ UploadOneFile ⟨0, [], 0, false, none⟩ ⟨none, none, []⟩ []
      = GoCall.panicked "runtime error: index out of range [0] with length 0" :=
  ⟨(uploadOneFile_panics_on_empty ⟨0, [], 0, false, none⟩ ⟨none, none, []⟩ []).1
      rfl rfl rfl,
   (uploadOneFile_panics_on_empty ⟨0, [], 0, false, none⟩ ⟨none, none, []⟩ []).2.mpr
      ⟨rfl, rfl, rfl⟩⟩

/-- Embedding of `Tools.RandomString` (tools.go): index `randStringSource` at
each of the `l` values drawn from the external random source `rand.IntN(64)`,
whose contract (a value in `[0, 64)`) is captured by the `Fin 64` codomain of
the oracle `rng`. -/
def RandomString (rng : Nat → Fin 64) (l : Nat) : String :=
  ⟨(List.range l).map (fun i => randSourceChars.get (Fin.cast (by decide) (rng i)))⟩

/-- Claim C9: for every length `l` and every behaviour of the random source,
`RandomString` returns a string of length exactly `l` whose characters all
come from `randStringSource` — a 64-symbol duplicate-free alphabet each of
whose symbols is a lowercase letter, an uppercase letter, a digit, `_` or
`+`. -/
theorem randomString_length_and_alphabet (rng : Nat → Fin 64) (l : Nat) :
    (RandomString rng l).length = l
    ∧ (∀ c ∈ (RandomString rng l).data, c ∈ randSourceChars)
    ∧ randSourceChars.length = 64
    ∧ randSourceChars.Nodup
    ∧ (∀ c ∈ randSourceChars,
        ('a' ≤ c ∧ c ≤ 'z') ∨ ('A' ≤ c ∧ c ≤ 'Z') ∨ ('0' ≤ c ∧ c ≤ '9')
          ∨ c = '_' ∨ c = '+') := by
  refine ⟨?_, ?_, by decide, by decide, by decide⟩
  · show ((List.range l).map
      (fun i => randSourceChars.get (Fin.cast (by decide) (rng i)))).length = l
    simp
  · intro c hc
    have hc2 : c ∈ (List.range l).map
        (fun i => randSourceChars.get (Fin.cast (by decide) (rng i))) := hc
    rcases List.mem_map.mp hc2 with ⟨i, _, rfl⟩
    exact List.get_mem _ _ _

/-- Witness for C9: a concrete oracle always drawing index 0 produces a
3-character string, every character of which is in the alphabet. -/
theorem randomString_length_and_alphabet_witness :
    (RandomString (fun _ => ⟨0, by decide⟩) 3).length = 3
    ∧ (∀ c ∈ (RandomString (fun _ => ⟨0, by decide⟩) 3).data,
        c ∈ randSourceChars) :=
  ⟨(randomString_length_and_alphabet (fun _ => ⟨0, by decide⟩) 3).1,
   (randomString_length_and_alphabet (fun _ => ⟨0, by decide⟩) 3).2.1⟩

/-- Membership in the character class `[a-z0-9]` kept by the `Slugfy` regular
expression `[^a-z\d]+` (Go `\d` is ASCII `0-9`). -/
def isSlugChar (c : Char) : Bool :=
  (97 ≤ c.toNat && c.toNat ≤ 122) || (48 ≤ c.toNat && c.toNat ≤ 57)

/-- Pointwise effect of the regular-expression replacement: a kept character
stays, any other character becomes a hyphen (runs are collapsed separately by
`squeezeHyphens`). -/
def hyphenateChar (c : Char) : Char := if isSlugChar c then c else '-'

/-- Test for the hyphen character. -/
def isHy (c : Char) : Bool := c == '-'

/-- Collapse of adjacent hyphens: together with the pointwise `hyphenateChar`
map this realises `re.ReplaceAllString(s, "-")` for `re = [^a-z\d]+`, which
replaces each maximal run of excluded characters with a single hyphen. -/
def squeezeHyphens : List Char → List Char
  | [] => []
  | [c] => [c]
  | a :: b :: rest =>
    if isHy a && isHy b then squeezeHyphens (b :: rest)
    else a :: squeezeHyphens (b :: rest)

/-- Embedding of `strings.Trim(x, "-")`: drop hyphens from both ends. -/
def trimHyphens (l : List Char) : List Char :=
  ((l.dropWhile isHy).reverse.dropWhile isHy).reverse

/-- Slug computation of `Tools.Slugfy` (tools.go): lowercase via the
`strings.ToLower` character mapping `low` (an external collaborator — Go's
Unicode simple lowering — passed as an oracle), collapse every run of
non-`[a-z0-9]` characters to one hyphen, trim hyphens at both ends. -/
def slugCore (low : Char → Char) (s : String) : List Char :=
  trimHyphens (squeezeHyphens ((s.data.map low).map hyphenateChar))

/-- Embedding of `Tools.Slugfy` (tools.go): the empty string is refused up
front, an empty result after the slug transformation is refused with the
second message, and otherwise the slug is returned.  `low` is the
`strings.ToLower` character mapping. -/
def Slugfy (low : Char → Char) (s : String) : Except String String :=
  if s = "" then .error "empty string not allowed"
  else if (slugCore low s).length = 0 then
    .error "empty string, after slug process"
  else .ok ⟨slugCore low s⟩

/-- No-adjacent-hyphens invariant produced by `squeezeHyphens`. -/
def Rhy (a b : Char) : Prop := ¬(isHy a = true ∧ isHy b = true)

lemma rhy_symm {a b : Char} (h : Rhy a b) : Rhy b a :=
  fun hab => h ⟨hab.2, hab.1⟩

lemma squeeze_head (b : Char) (rest : List Char) :
    (squeezeHyphens (b :: rest)).head? = some b := by
  induction rest generalizing b with
  | nil => rfl
  | cons c r ih =>
    by_cases h : (isHy b && isHy c) = true
    · have hb : b = '-' := by
        have h1 := ((Bool.and_eq_true _ _).mp h).1
        simp [isHy] at h1
        exact h1
      have hc : c = '-' := by
        have h1 := ((Bool.and_eq_true _ _).mp h).2
        simp [isHy] at h1
        exact h1
      rw [show squeezeHyphens (b :: c :: r) = squeezeHyphens (c :: r) by
        simp [squeezeHyphens, h]]
      rw [ih c, hb, hc]
    · rw [show squeezeHyphens (b :: c :: r) = b :: squeezeHyphens (c :: r) by
        simp [squeezeHyphens, h]]
      rfl

lemma squeeze_chain : ∀ l : List Char, List.Chain' Rhy (squeezeHyphens l)
  | [] => by simp [squeezeHyphens]
  | [c] => by simp [squeezeHyphens]
  | a :: b :: rest => by
    by_cases h : (isHy a && isHy b) = true
    · rw [show squeezeHyphens (a :: b :: rest) = squeezeHyphens (b :: rest) by
        simp [squeezeHyphens, h]]
      exact squeeze_chain (b :: rest)
    · rw [show squeezeHyphens (a :: b :: rest) = a :: squeezeHyphens (b :: rest) by
        simp [squeezeHyphens, h]]
      rw [List.chain'_cons']
      refine ⟨?_, squeeze_chain (b :: rest)⟩
      intro y hy
      rw [squeeze_head b rest] at hy
      have hyb : b = y := by simpa using hy
      subst hyb
      intro hab
      exact h (by simp [hab.1, hab.2])

lemma squeeze_subset : ∀ l : List Char, ∀ c ∈ squeezeHyphens l, c ∈ l
  | [] => by simp [squeezeHyphens]
  | [c] => by simp [squeezeHyphens]
  | a :: b :: rest => by
    intro c hc
    by_cases h : (isHy a && isHy b) = true
    · rw [show squeezeHyphens (a :: b :: rest) = squeezeHyphens (b :: rest) by
        simp [squeezeHyphens, h]] at hc
      exact List.mem_cons_of_mem a (squeeze_subset (b :: rest) c hc)
    · rw [show squeezeHyphens (a :: b :: rest) = a :: squeezeHyphens (b :: rest) by
        simp [squeezeHyphens, h]] at hc
      rcases List.mem_cons.mp hc with rfl | hc2
      · exact List.mem_cons_self _ _
      · exact List.mem_cons_of_mem a (squeeze_subset (b :: rest) c hc2)

lemma squeeze_of_chain : ∀ l : List Char, List.Chain' Rhy l → squeezeHyphens l = l
  | [] => fun _ => rfl
  | [c] => fun _ => rfl
  | a :: b :: rest => fun hch => by
    have hr : Rhy a b := (List.chain'_cons.mp hch).1
    have h : ¬ (isHy a && isHy b) = true := by
      intro h2
      exact hr ⟨((Bool.and_eq_true _ _).mp h2).1, ((Bool.and_eq_true _ _).mp h2).2⟩
    rw [show squeezeHyphens (a :: b :: rest) = a :: squeezeHyphens (b :: rest) by
      simp [squeezeHyphens, h]]
    rw [squeeze_of_chain (b :: rest) (List.chain'_cons.mp hch).2]

lemma dropWhile_head_not {α : Type} (p : α → Bool) :
    ∀ (l : List α) (a : α), (l.dropWhile p).head? = some a → p a = false := by
  intro l
  induction l with
  | nil => intro a h; simp [List.dropWhile] at h
  | cons x xs ih =>
    intro a h
    by_cases hx : p x = true
    · rw [List.dropWhile_cons, if_pos hx] at h
      exact ih a h
    · rw [List.dropWhile_cons, if_neg hx] at h
      have hxa : x = a := by simpa using h
      subst hxa
      exact Bool.not_eq_true _ ▸ (by simpa using hx)

lemma dropWhile_eq_self_of_head {α : Type} (p : α → Bool) (l : List α)
    (hl : ∀ a, l.head? = some a → p a = false) : l.dropWhile p = l := by
  cases l with
  | nil => rfl
  | cons x xs =>
    rw [List.dropWhile_cons, if_neg]
    simp [hl x rfl]

lemma getLast?_dropWhile {α : Type} (p : α → Bool) :
    ∀ l : List α, l.dropWhile p ≠ [] → (l.dropWhile p).getLast? = l.getLast? := by
  intro l
  induction l with
  | nil => intro h; exact absurd rfl h
  | cons x xs ih =>
    intro h
    by_cases hx : p x = true
    · rw [List.dropWhile_cons, if_pos hx] at h ⊢
      have hxs : xs ≠ [] := by
        intro he
        rw [he] at h
        exact h rfl
      rw [ih h]
      cases xs with
      | nil => exact absurd rfl hxs
      | cons y ys => simp
    · rw [List.dropWhile_cons, if_neg hx]

lemma trim_subset (l : List Char) : ∀ c ∈ trimHyphens l, c ∈ l := by
  intro c hc
  have h1 : c ∈ (l.dropWhile isHy).reverse.dropWhile isHy :=
    List.mem_reverse.mp hc
  have h2 : c ∈ (l.dropWhile isHy).reverse :=
    (List.dropWhile_suffix isHy).sublist.subset h1
  have h3 : c ∈ l.dropWhile isHy := List.mem_reverse.mp h2
  exact (List.dropWhile_suffix isHy).sublist.subset h3

lemma chain_reverse_rhy {l : List Char} (h : List.Chain' Rhy l) :
    List.Chain' Rhy l.reverse :=
  List.chain'_reverse.mpr (h.imp (fun _ _ hab => rhy_symm hab))

lemma trim_chain (l : List Char) (h : List.Chain' Rhy l) :
    List.Chain' Rhy (trimHyphens l) := by
  have h1 : List.Chain' Rhy (l.dropWhile isHy) :=
    h.suffix (List.dropWhile_suffix isHy)
  have h2 : List.Chain' Rhy (l.dropWhile isHy).reverse := chain_reverse_rhy h1
  have h3 : List.Chain' Rhy ((l.dropWhile isHy).reverse.dropWhile isHy) :=
    h2.suffix (List.dropWhile_suffix isHy)
  exact chain_reverse_rhy h3

lemma trim_head_last (l : List Char) (hne : trimHyphens l ≠ []) :
    (∀ a, (trimHyphens l).head? = some a → isHy a = false)
    ∧ (∀ a, (trimHyphens l).getLast? = some a → isHy a = false) := by
  constructor
  · intro a ha
    have hB : (l.dropWhile isHy).reverse.dropWhile isHy ≠ [] := by
      intro h
      exact hne (by simp [trimHyphens, h])
    rw [show (trimHyphens l).head?
        = ((l.dropWhile isHy).reverse.dropWhile isHy).getLast? from
      List.head?_reverse _] at ha
    rw [getLast?_dropWhile isHy _ hB, List.getLast?_reverse] at ha
    exact dropWhile_head_not isHy l a ha
  · intro a ha
    rw [show (trimHyphens l).getLast?
        = ((l.dropWhile isHy).reverse.dropWhile isHy).head? from
      List.getLast?_reverse _] at ha
    exact dropWhile_head_not isHy _ a ha

lemma trim_eq_self (l : List Char)
    (hh : ∀ a, l.head? = some a → isHy a = false)
    (hl2 : ∀ a, l.getLast? = some a → isHy a = false) : trimHyphens l = l := by
  rw [trimHyphens, dropWhile_eq_self_of_head isHy l hh]
  rw [dropWhile_eq_self_of_head isHy l.reverse
    (fun a ha => hl2 a (by rwa [List.head?_reverse] at ha))]
  exact List.reverse_reverse l

lemma toLowerAscii_fix (c : Char) (h : isSlugChar c = true ∨ c = '-') :
    toLowerAscii c = c := by
  rcases h with h | rfl
  · have hb : (97 ≤ c.toNat ∧ c.toNat ≤ 122) ∨ (48 ≤ c.toNat ∧ c.toNat ≤ 57) := by
      simpa [isSlugChar] using h
    rw [toLowerAscii, if_neg]
    simp only [Bool.and_eq_true, decide_eq_true_eq, not_and]
    omega
  · rfl

lemma hyphenate_fix (c : Char) (h : isSlugChar c = true ∨ c = '-') :
    hyphenateChar c = c := by
  rcases h with h | rfl
  · simp [hyphenateChar, h]
  · rfl

lemma slugCore_chars (low : Char → Char) (s : String) :
    ∀ c ∈ slugCore low s, isSlugChar c = true ∨ c = '-' := by
  intro c hc
  have h1 : c ∈ squeezeHyphens ((s.data.map low).map hyphenateChar) :=
    trim_subset _ c hc
  have h2 := squeeze_subset _ c h1
  rcases List.mem_map.mp h2 with ⟨x, _, rfl⟩
  by_cases hx : isSlugChar x = true
  · left; simp [hyphenateChar, hx]
  · right; simp [hyphenateChar, hx]

lemma slugCore_fixed (low : Char → Char)
    (hlow : ∀ c, isSlugChar c = true ∨ c = '-' → low c = c) (l : List Char)
    (hP : ∀ c ∈ l, isSlugChar c = true ∨ c = '-')
    (hchain : List.Chain' Rhy l)
    (hh : ∀ a, l.head? = some a → isHy a = false)
    (hl2 : ∀ a, l.getLast? = some a → isHy a = false) :
    slugCore low ⟨l⟩ = l := by
  show trimHyphens (squeezeHyphens ((l.map low).map hyphenateChar)) = l
  rw [List.map_congr_left (fun c hc => hlow c (hP c hc)), List.map_id']
  rw [List.map_congr_left (fun c hc => hyphenate_fix c (hP c hc)), List.map_id']
  rw [squeeze_of_chain l hchain]
  exact trim_eq_self l hh hl2

lemma squeeze_replicate : ∀ n, squeezeHyphens (List.replicate (n + 1) '-') = ['-'] := by
  intro n
  induction n with
  | zero => rfl
  | succ m ih =>
    rw [show List.replicate (m + 1 + 1) '-' = '-' :: List.replicate (m + 1) '-' from
      List.replicate_succ _ _]
    rw [show List.replicate (m + 1) '-' = '-' :: List.replicate m '-' from
      List.replicate_succ _ _]
    rw [show squeezeHyphens ('-' :: '-' :: List.replicate m '-')
        = squeezeHyphens ('-' :: List.replicate m '-') by
      simp [squeezeHyphens, isHy]]
    rw [show ('-' :: List.replicate m '-') = List.replicate (m + 1) '-' from
      (List.replicate_succ _ _).symm]
    exact ih

/-- Claim C8: for every `strings.ToLower` character mapping `low` that — as
Go's Unicode simple lowering does — fixes the characters `[a-z0-9]` and `-`:
whenever `Slugfy` succeeds with result `r`, applying `Slugfy` to `r` succeeds
and returns `r` unchanged (idempotence after the first pass); and every string
with no alphanumeric content (no character that lowering sends into
`[a-z0-9]`) fails — with "empty string not allowed" when the string is empty
and with "empty string, after slug process" otherwise — so a repeated
application fails identically. -/
theorem slugfy_idempotent_and_empty (low : Char → Char)
    (hlow : ∀ c, isSlugChar c = true ∨ c = '-' → low c = c) (s : String) :
    (∀ r, Slugfy low s = .ok r → Slugfy low r = .ok r)
    ∧ ((∀ c ∈ s.data, isSlugChar (low c) = false) →
        Slugfy low s = .error (if s = "" then "empty string not allowed"
          else "empty string, after slug process")) := by
  constructor
  · intro r hr
    by_cases hs : s = ""
    · rw [Slugfy, if_pos hs] at hr
      exact absurd hr (by simp)
    · rw [Slugfy, if_neg hs] at hr
      by_cases hlen : (slugCore low s).length = 0
      · rw [if_pos hlen] at hr
        exact absurd hr (by simp)
      · rw [if_neg hlen] at hr
        injection hr with h2
        subst h2
        have hne : slugCore low s ≠ [] := fun h => hlen (by simp [h])
        have hchain : List.Chain' Rhy (slugCore low s) :=
          trim_chain (squeezeHyphens ((s.data.map low).map hyphenateChar))
            (squeeze_chain _)
        have hhl := trim_head_last
          (squeezeHyphens ((s.data.map low).map hyphenateChar)) hne
        have hfix : slugCore low ⟨slugCore low s⟩ = slugCore low s :=
          slugCore_fixed low hlow (slugCore low s) (slugCore_chars low s)
            hchain hhl.1 hhl.2
        have hne2 : (⟨slugCore low s⟩ : String) ≠ "" := by
          intro h
          exact hne (by simpa using congrArg String.data h)
        rw [Slugfy, if_neg hne2, hfix, if_neg hlen]
  · intro hno
    by_cases hs : s = ""
    · rw [Slugfy, if_pos hs, if_pos hs]
    · rw [if_neg hs]
      have hdata : s.data ≠ [] := by
        intro h
        apply hs
        cases s
        simp at h
        simp [h]
      have hMrep : (s.data.map low).map hyphenateChar
          = List.replicate s.data.length '-' := by
        have hall : ∀ c ∈ (s.data.map low).map hyphenateChar, c = '-' := by
          intro c hc
          rcases List.mem_map.mp hc with ⟨x, hx, rfl⟩
          rcases List.mem_map.mp hx with ⟨y, hy, rfl⟩
          simp [hyphenateChar, hno y hy]
        have hrep := List.eq_replicate_of_mem hall
        simpa using hrep
      obtain ⟨n, hn⟩ : ∃ n, s.data.length = n + 1 := by
        have hpos := List.length_pos.mpr hdata
        exact ⟨s.data.length - 1, by omega⟩
      have hcore : slugCore low s = [] := by
        rw [slugCore, hMrep, hn, squeeze_replicate n]
        rfl
      rw [Slugfy, if_neg hs, if_pos (by simp [hcore])]

/-- Witness for C8: with the ASCII lowering instance (which fixes `[a-z0-9]`
and `-`, discharging the oracle contract), slugifying "hello world" yields
"hello-world", on which a second pass is the identity; "!!!" has no
alphanumeric content and fails with the post-processing emptiness error. -/
theorem slugfy_idempotent_and_empty_witness :
    Slugfy toLowerAscii "hello-world" = Except.ok "hello-world"
    ∧ Slugfy toLowerAscii "!!!" = Except.error "empty string, after slug process" := by
  constructor
  · exact (slugfy_idempotent_and_empty toLowerAscii toLowerAscii_fix
      "hello world").1 "hello-world" (by rfl)
  · have h := (slugfy_idempotent_and_empty toLowerAscii toLowerAscii_fix
      "!!!").2 (by decide)
    rwa [if_neg (by decide : ¬("!!!" = ""))] at h

end Toolkit
